import Mathlib

/-!
Shallow embedding of the sqlite-backed cache store of this repository
(`src/index.js` together with `src/serializers.js`).  JavaScript values are
modelled by `JSVal`, the namespace table by a list of rows in rowid order,
and each public operation by a Lean function over that state, translated
statement by statement from the source.  Timestamps (the source's `now()`)
are passed explicitly as integer parameters.
-/

namespace SqliteCache

/-- Model of the JavaScript values this library manipulates.  Plain objects
are tracked only up to the single field the code ever reads from them
(`options.ttl`, modelled as an optional integer); buffers carry their byte
list. -/
inductive JSVal where
  | vundef
  | vnull
  | vbool (b : Bool)
  | vnum (n : Int)
  | vstr (s : String)
  | vbuf (bs : List Nat)
  | vfun
  | vobj (ttlField : Option Int)
deriving DecidableEq

open JSVal

/-- JavaScript `typeof`; note `typeof null` is `"object"`. -/
def jsTypeof : JSVal → String
  | vundef => "undefined"
  | vnull => "object"
  | vbool _ => "boolean"
  | vnum _ => "number"
  | vstr _ => "string"
  | vbuf _ => "object"
  | vfun => "function"
  | vobj _ => "object"

/-- JavaScript truthiness, used by the `a || b` fallback chains in the
source (`0`, `""`, `null` and `undefined` are falsy). -/
def truthy : JSVal → Bool
  | vundef => false
  | vnull => false
  | vbool b => b
  | vnum n => n != 0
  | vstr s => s != ""
  | vbuf _ => true
  | vfun => true
  | vobj _ => true

/-- The JavaScript `a || b` operator. -/
def jsOr (a b : JSVal) : JSVal := if truthy a then a else b

/-- `liftFirst(type, ...args)` from src/index.js: the first argument whose
`typeof` equals the given type, or `undefined` when none matches (the
behaviour of `Array.prototype.find`). -/
def liftFirst (ty : String) (args : List JSVal) : JSVal :=
  (args.find? (fun a => jsTypeof a == ty)).getD vundef

/-- One row of the namespace table
`(key TEXT PRIMARY KEY, val BLOB, created_at INTEGER, expire_at INTEGER)`. -/
structure Row where
  key : String
  val : JSVal
  created_at : Int
  expire_at : Int
deriving DecidableEq

/-- A namespace table, kept in rowid order (the order in which a plain
`SELECT` without `ORDER BY` scans it). -/
abbrev Table := List Row

/-- `_fetch_all(keys)`: `SELECT * FROM t WHERE key IN (?, ..., ?)`.  Every
matching row is returned once, in rowid order.  (With an empty key list the
generated `IN ()` fails to parse; the callers below record that case in
their error flag.) -/
def fetchAll (t : Table) (keys : List String) : Table :=
  t.filter (fun r => keys.contains r.key)

/-- A serializer pair as held in the adapter's `#serializer` field.  A
`none` result models a thrown exception; a `some p` result is the JS value
handed to the sqlite binding (a buffer for cbor, a string for json). -/
structure Codec where
  serialize : JSVal → Option JSVal
  deserialize : JSVal → Option JSVal

/-- Byte encoding used by the cbor-x model below: a tag byte followed by a
direct rendering of the value.  The exact bytes produced by the real cbor-x
library are irrelevant to every claim; the model only keeps the encoding
injective and invertible, which is all that is used. -/
def cborEncBytes : JSVal → List Nat
  | vundef => [0]
  | vnull => [1]
  | vbool b => [2, if b then 1 else 0]
  | vnum n => [3, if n < 0 then 1 else 0, n.natAbs]
  | vstr s => 4 :: s.toList.map Char.toNat
  | vbuf bs => 5 :: bs
  | vfun => [6]
  | vobj none => [7]
  | vobj (some n) => [8, if n < 0 then 1 else 0, n.natAbs]

/-- Partial inverse of `cborEncBytes`. -/
def cborDecBytes : List Nat → Option JSVal
  | [0] => some vundef
  | [1] => some vnull
  | [2, b] => some (vbool (b == 1))
  | [3, s, m] => some (vnum (if s == 1 then -(m : Int) else (m : Int)))
  | 4 :: cs => some (vstr (String.mk (cs.map Char.ofNat)))
  | 5 :: bs => some (vbuf bs)
  | [7] => some (vobj none)
  | [8, s, m] => some (vobj (some (if s == 1 then -(m : Int) else (m : Int))))
  | _ => none

/-- Model of the `cbor` entry of src/serializers.js (backed by the external
cbor-x library): `encode` throws on function values, and `decode` expects a
byte buffer and throws on anything else — in particular on the `null`
sentinel stored for unencodable values. -/
def cborCodec : Codec where
  serialize v :=
    match v with
    | vfun => none
    | v => some (vbuf (cborEncBytes v))
  deserialize p :=
    match p with
    | vbuf bs => cborDecBytes bs
    | _ => none

/-- Model of the `json` entry of src/serializers.js: `JSON.stringify`
renders to a string (functions and `undefined` stringify to `undefined`
rather than throwing), `JSON.parse` is modelled only far enough to
distinguish the two codecs — no claim relies on json round-trips. -/
def jsonCodec : Codec where
  serialize v :=
    match v with
    | vfun => some vundef
    | vundef => some vundef
    | vnull => some (vstr "null")
    | vbool b => some (vstr (if b then "true" else "false"))
    | vnum n => some (vstr (toString n))
    | vstr s => some (vstr (String.append "str:" s))
    | vbuf _ => some (vstr "buffer")
    | vobj _ => some (vstr "object")
  deserialize p :=
    match p with
    | vstr "null" => some vnull
    | vnull => some vnull
    | _ => none

/-- The exported map of src/serializers.js, read as an index expression
`serializers[x]`: the string keys `"json"` and `"cbor"` hit the two
codecs, any other index yields `undefined` (`none`). -/
def serializersLookup : JSVal → Option Codec
  | vstr "json" => some jsonCodec
  | vstr "cbor" => some cborCodec
  | _ => none

/-- The constructor's codec selection (src/index.js line 91):
`this.#serializer = serializers['cbor' || options.serializer]`, applied to
whatever `options.serializer` holds. -/
def adapterSerializer (optionsSerializer : JSVal) : Option Codec :=
  serializersLookup (jsOr (vstr "cbor") optionsSerializer)

/-- `#serialize(obj)`: the codec call wrapped in try/catch, returning
`null` when the codec throws. -/
def privSerialize (c : Codec) (v : JSVal) : JSVal := (c.serialize v).getD vnull

/-- `#deserialize(payload)`: the codec call wrapped in try/catch, returning
`null` when the codec throws. -/
def privDeserialize (c : Codec) (p : JSVal) : JSVal := (c.deserialize p).getD vnull

/-- node-sqlite3 binds `undefined` as SQL NULL, and a NULL column reads
back as JS `null`; applied to the `$val` binding when a row is written. -/
def bindVal : JSVal → JSVal
  | vundef => vnull
  | v => v

/-- `INSERT OR REPLACE`: the conflicting row (same primary key) is deleted
and the new row inserted under a fresh rowid, i.e. appended in scan
order. -/
def upsert (t : Table) (r : Row) : Table :=
  t.filter (fun x => x.key != r.key) ++ [r]

/-- What `mget` delivers: `err` is set when the generated statement is
invalid (empty `IN ()` list), `values` is the argument of the success
callback, and `purgeScheduled` records whether a background purge was
enqueued (`rows.length < rs.length`). -/
structure MgetRes where
  err : Bool
  values : List JSVal
  purgeScheduled : Bool
deriving DecidableEq

/-- `mget(keys, ...)` at time `ts` (src/index.js lines 115-133): fetch all
matching rows, keep those with `expire_at > ts`, schedule a purge when any
row was filtered out, and hand the decoded values of the kept rows to the
callback. -/
def mget (c : Codec) (ts : Int) (t : Table) (keys : List String) : MgetRes :=
  if keys.isEmpty then ⟨true, [], false⟩
  else
    let rs := fetchAll t keys
    let rows := rs.filter (fun r => decide (ts < r.expire_at))
    ⟨false, rows.map (fun r => privDeserialize c r.val), decide (rows.length < rs.length)⟩

/-- What `get` delivers to its caller. -/
structure GetRes where
  err : Bool
  value : JSVal
  purgeScheduled : Bool
deriving DecidableEq

/-- `get(key, ...)` (src/index.js lines 169-181): delegates to
`mget([key])` and returns `rows.length > 0 ? rows[0] : null`; an error is
passed through (with no value, i.e. `undefined`). -/
def get (c : Codec) (ts : Int) (t : Table) (key : String) : GetRes :=
  let m := mget c ts t [key]
  if m.err then ⟨true, vundef, m.purgeScheduled⟩
  else ⟨false, match m.values with | [] => vnull | v :: _ => v, m.purgeScheduled⟩

/-- Modelled from the spec: the single-key read as the batch path
specialized to a one-element key sequence — `mget([k])` followed by taking
the first element of the result when non-empty and `null` otherwise,
inheriting the same stale-row filtering and purge trigger. -/
def getViaBatch (c : Codec) (ts : Int) (t : Table) (key : String) : GetRes :=
  let m := mget c ts t [key]
  ⟨m.err, m.values.headD vnull, m.purgeScheduled⟩

/-- Outcome of a write statement: `err` models statement-level failures
(malformed SQL, placeholder/column arity mismatch); storage-level I/O
faults are outside the model.  On error nothing is written. -/
structure OpRes where
  err : Bool
  table : Table
deriving DecidableEq

/-- `options.ttl` as the code reads it: the tracked field of an options
object, `undefined` otherwise. -/
def objTtl : JSVal → JSVal
  | vobj (some n) => vnum n
  | _ => vundef

/-- The ttl resolution of `set` (src/index.js lines 184-186):
`options = liftFirst('object', ttl, options) || {}` followed by
`ttl = liftFirst('number', ttl) || options.ttl || this.#default_ttl`.
The fallback chain always ends in a number, so the final arm is
unreachable. -/
def setEffectiveTtl (ttlArg optionsArg : JSVal) (dflt : Int) : Int :=
  let options := jsOr (liftFirst "object" [ttlArg, optionsArg]) (vobj none)
  match jsOr (jsOr (liftFirst "number" [ttlArg]) (objTtl options)) (vnum dflt) with
  | vnum n => n
  | _ => 0

/-- `set(key, value, ttl, options, callback)` (src/index.js lines 183-200):
resolves the trailing arguments, encodes the value (storing `null` when
the codec throws) and runs the single-row upsert, which is a well-formed
statement. -/
def set (c : Codec) (dflt ts : Int) (t : Table) (key : String) (value : JSVal)
    (ttlArg optionsArg : JSVal) : OpRes :=
  ⟨false, upsert t ⟨key, bindVal (privSerialize c value), ts,
    ts + setEffectiveTtl ttlArg optionsArg dflt⟩⟩

/-- `tuplize(args, 2)` from src/index.js: chunks the flattened argument
list into key/value pairs; an odd-length list leaves a dangling one-element
chunk at the end. -/
def tuplize2 : List JSVal → List (List JSVal)
  | [] => []
  | [a] => [[a]]
  | a :: b :: rest => [a, b] :: tuplize2 rest

/-- `mset`'s pop of a trailing callback:
`typeof args[args.length - 1] === 'function' ? args.pop() : undefined`. -/
def popCallback (args : List JSVal) : List JSVal :=
  match args.getLast? with
  | some a => if jsTypeof a == "function" then args.dropLast else args
  | none => args

/-- `mset`'s pop of a trailing options object, attempted only when the
remaining argument count is odd and the last argument is a non-null
object; otherwise the options default to `{}`. -/
def popOptions (args : List JSVal) : List JSVal × JSVal :=
  if args.length % 2 = 1 then
    match args.getLast? with
    | some a =>
        if a ≠ vnull ∧ jsTypeof a = "object" then (args.dropLast, a) else (args, vobj none)
    | none => (args, vobj none)
  else (args, vobj none)

/-- TEXT affinity of the `key` column: a bound string is stored as-is, a
bound number as its decimal text; no other binding occurs in a key
position in this development. -/
def keyOfJS : JSVal → String
  | vstr s => s
  | vnum n => toString n
  | _ => ""

/-- `mset(...args)` (src/index.js lines 135-167).  After popping the
trailing callback and (for odd counts) a trailing options object, the
remaining list is chunked into pairs and written by one multi-row
`INSERT OR REPLACE`, with one shared `created_at`/`expire_at` pair and
`ttl = options.ttl || default`.  Each placeholder group is generated with
`chunk.length + 2` slots against the 4 named columns, so any chunk that is
not an exact pair — and likewise an empty `VALUES` list — makes the
statement fail to prepare: the error is reported and nothing is written. -/
def mset (c : Codec) (dflt ts : Int) (t : Table) (args : List JSVal) : OpRes :=
  let cleaned := popOptions (popCallback args)
  let ttl := match jsOr (objTtl cleaned.2) (vnum dflt) with
    | vnum n => n
    | _ => 0
  let tuples := tuplize2 cleaned.1
  if tuples.isEmpty || (tuples.map (fun tu => tu.length + 2)).any (fun g => g != 4) then
    ⟨true, t⟩
  else
    ⟨false, tuples.foldl (fun tb tu =>
      upsert tb ⟨keyOfJS (tu.headD vundef), bindVal (privSerialize c (tu.getD 1 vundef)),
        ts, ts + ttl⟩) t⟩

/-- `del(key, ...)` (src/index.js lines 202-213):
`DELETE FROM t WHERE key IN ($keys)` with `$keys` bound to the one-element
array `[key]`; node-sqlite3 binds that object through its string
conversion and `String([key])` is exactly the key's text, so the statement
deletes precisely the rows whose key equals `key`, and is well-formed
whether or not any row matches. -/
def del (t : Table) (key : String) : OpRes :=
  ⟨false, t.filter (fun r => r.key != key)⟩

/-- `ttl(key)` (src/index.js lines 226-240): reads the raw matching rows —
no staleness filter — and returns `-1` when none exists, otherwise
`expire_at - now` of the first. -/
def ttlOp (ts : Int) (t : Table) (key : String) : Int :=
  match fetchAll t [key] with
  | [] => -1
  | r :: _ => r.expire_at - ts

/-! Basic lemmas about the embedding. -/

/-- Fetching a single key keeps exactly the rows carrying that key. -/
theorem fetchAll_singleton (t : Table) (k : String) :
    fetchAll t [k] = t.filter (fun r => decide (r.key = k)) := by
  simp [fetchAll]

/-- After an upsert, fetching the upserted key returns exactly the new row. -/
theorem fetchAll_upsert_self (t : Table) (r : Row) :
    fetchAll (upsert t r) [r.key] = [r] := by
  simp [fetchAll_singleton, upsert, List.filter_append, List.filter_filter]

/-- After a delete, fetching the deleted key returns nothing. -/
theorem fetchAll_del_self (t : Table) (k : String) :
    fetchAll (del t k).table [k] = [] := by
  simp [fetchAll_singleton, del, List.filter_filter]

/-- Taking the head of a list with a `null` default, written as the
source's `rows.length > 0 ? rows[0] : null` conditional. -/
theorem match_first_headD (l : List JSVal) :
    (match l with | [] => vnull | v :: _ => v) = l.headD vnull := by
  cases l <;> rfl

/-- An odd-length flattened argument list always produces a placeholder
group of size 3 against the 4 insert columns. -/
theorem tuplize2_odd_any : ∀ (l : List JSVal), l.length % 2 = 1 →
    ((tuplize2 l).map (fun tu => tu.length + 2)).any (fun g => g != 4) = true
  | [], h => by simp at h
  | [_], _ => by simp [tuplize2]
  | _ :: _ :: rest, h => by
      have hodd : rest.length % 2 = 1 := by
        simp [List.length_cons] at h
        omega
      have ih := tuplize2_odd_any rest hodd
      simp [tuplize2, ih]

/-! Claim theorems. -/

/-- Claim C1, evaluated on the code: `mget` only filters the fetched rows
and maps them, so after storing `a` and `b` live, `mget(['a', 'missing',
'b'])` delivers the two live values in rowid order — a two-element result
for a three-element key sequence, with no `absent` padding at the missing
position.  This refutes the claimed positional alignment (and the repo's
own test expecting a three-element all-absent result for three expired
keys). -/
theorem mget_no_positional_padding_eval :
    (mget cborCodec 0
      (set cborCodec 86400000 0
        (set cborCodec 86400000 0 [] "a" (vnum 1) (vnum 100) vundef).table
        "b" (vnum 2) (vnum 100) vundef).table
      ["a", "missing", "b"]).values = [vnum 1, vnum 2] ∧
    (["a", "missing", "b"] : List String).length = 3 := by
  constructor
  · rfl
  · rfl

/-- Claim C2, counterexample: `set(k, v, 0)` does not produce an already
expired entry.  The positional ttl `0` is falsy, so the resolution chain
`liftFirst('number', ttl) || options.ttl || default` falls through to the
default ttl (here 24h), and a `get` at a strictly later time still returns
the stored value, not absent. -/
theorem set_zero_ttl_not_expired :
    (get cborCodec 1000
      (set cborCodec 86400000 0 [] "k" (vnum 7) (vnum 0) vundef).table "k").value
      = vnum 7 ∧ vnum 7 ≠ vnull := by
  constructor
  · rfl
  · intro h
    cases h

/-- Claim C2, amended: for every strictly negative ttl `tt`, `set`
completes without error, stores the row with `expire_at = created_at + tt`
(already expired at creation), and a `get` at any time `ts' ≥ ts` returns
`null`.  (At `tt = 0` the code instead falls back to `options.ttl` or the
default ttl, see the counterexample.) -/
theorem set_negative_ttl_immediately_expired (c : Codec) (d ts ts' tt : Int)
    (t : Table) (k : String) (v o : JSVal) (hneg : tt < 0) (hts : ts ≤ ts') :
    (set c d ts t k v (vnum tt) o).err = false ∧
    fetchAll (set c d ts t k v (vnum tt) o).table [k]
      = [⟨k, bindVal (privSerialize c v), ts, ts + tt⟩] ∧
    (get c ts' (set c d ts t k v (vnum tt) o).table k).value = vnull := by
  have hb : (tt != 0) = true := by
    have : tt ≠ 0 := by omega
    simpa using this
  have httl : setEffectiveTtl (vnum tt) o d = tt := by
    simp [setEffectiveTtl, liftFirst, jsOr, truthy, objTtl, jsTypeof, List.find?, hb]
  have htbl : (set c d ts t k v (vnum tt) o).table
      = upsert t ⟨k, bindVal (privSerialize c v), ts, ts + tt⟩ := by
    simp [set, httl]
  have hf := fetchAll_upsert_self t ⟨k, bindVal (privSerialize c v), ts, ts + tt⟩
  have hlt : ¬ (ts' < ts + tt) := by omega
  refine ⟨rfl, ?_, ?_⟩
  · rw [htbl]
    exact hf
  · rw [htbl]
    simp [get, mget, hf, hlt]

/-- Witness for the amended C2 theorem at `tt = -5`, `ts = 0`, `ts' = 100`. -/
theorem set_negative_ttl_immediately_expired_witness :
    (get cborCodec 100
      (set cborCodec 86400000 0 [] "k" (vnum 1) (vnum (-5)) vundef).table "k").value
      = vnull :=
  (set_negative_ttl_immediately_expired cborCodec 86400000 0 100 (-5) [] "k"
    (vnum 1) vundef (by decide) (by decide)).2.2

/-- Claim C3, evaluated on the code: the constructor selects
`serializers['cbor' || options.serializer]`, and `'cbor'` is a truthy
string, so every constructed store uses the cbor codec no matter what the
`serializer` option holds — refuting per-namespace codec selection (and
the repo's own custom-serializer test).  The two registered codecs really
are different, so the selection collapse is observable. -/
theorem serializer_option_ignored_eval :
    (∀ s : JSVal, adapterSerializer s = some cborCodec) ∧ jsonCodec ≠ cborCodec := by
  constructor
  · intro s
    rfl
  · intro h
    have h2 := congrArg (fun cc => cc.serialize (vnum 1)) h
    simp [jsonCodec, cborCodec, cborEncBytes] at h2

/-- Claim C4, counterexample to the claimed distinctness: a row that
exists but expired exactly one millisecond ago yields `expire_at - now =
-1`, the very value returned for a fully absent key, so the two cases are
not always distinguishable by the returned value. -/
theorem ttl_expired_row_collides_with_absent_sentinel :
    ttlOp 100 [⟨"a", vnull, 0, 99⟩] "a" = -1 ∧ ttlOp 100 [] "a" = -1 := by
  constructor
  · rfl
  · rfl

/-- Claim C4, amended: `ttl(k)` returns `-1` when no row for `k` exists
and `expire_at - now` for an existing row even when that difference is
non-positive; the returned value coincides with the `-1` absent sentinel
exactly when `expire_at = now - 1`, and otherwise the two cases are
distinguishable. -/
theorem ttl_raw_row_semantics (ts : Int) (t : Table) (k : String) :
    (fetchAll t [k] = [] → ttlOp ts t k = -1) ∧
    (∀ r l, fetchAll t [k] = r :: l →
      ttlOp ts t k = r.expire_at - ts ∧ (ttlOp ts t k = -1 ↔ r.expire_at = ts - 1)) := by
  constructor
  · intro h
    simp [ttlOp, h]
  · intro r l h
    refine ⟨by simp [ttlOp, h], ?_⟩
    simp [ttlOp, h]
    omega

/-- Witness for the amended C4 theorem: an existing live row at
`expire_at = 150`, read at `now = 100`, yields `50`. -/
theorem ttl_raw_row_semantics_witness :
    ttlOp 100 [⟨"a", vnull, 0, 150⟩] "a" = 50 := by
  have h := (ttl_raw_row_semantics 100 [⟨"a", vnull, 0, 150⟩] "a").2
    ⟨"a", vnull, 0, 150⟩ [] (by decide)
  simpa using h.1

/-- Claim C5, counterexample: with both an explicit positional ttl of `0`
and `options.ttl = 5`, the stored `expire_at` is `created_at + 5`, not
`created_at + 0`: the falsy explicit ttl loses to the options ttl. -/
theorem set_zero_positional_ttl_loses :
    (fetchAll (set cborCodec 86400000 0 [] "k" (vnum 1) (vnum 0)
      (vobj (some 5))).table ["k"]).map Row.expire_at = [5] ∧ (5 : Int) ≠ 0 := by
  constructor
  · rfl
  · decide

/-- Claim C5, amended: a nonzero explicit positional ttl determines
`expire_at = created_at + ttl` even when `options.ttl` is also supplied; a
nonzero `options.ttl` is used when no positional ttl is supplied; the
namespace default applies when neither is supplied.  (A zero ttl at either
level is falsy and falls through, see the counterexample.) -/
theorem set_ttl_precedence (c : Codec) (d ts : Int) (t : Table) (k : String)
    (v : JSVal) (n m : Int) (hn : n ≠ 0) (hm : m ≠ 0) :
    fetchAll (set c d ts t k v (vnum n) (vobj (some m))).table [k]
      = [⟨k, bindVal (privSerialize c v), ts, ts + n⟩] ∧
    fetchAll (set c d ts t k v vundef (vobj (some m))).table [k]
      = [⟨k, bindVal (privSerialize c v), ts, ts + m⟩] ∧
    fetchAll (set c d ts t k v vundef vundef).table [k]
      = [⟨k, bindVal (privSerialize c v), ts, ts + d⟩] := by
  have hbn : (n != 0) = true := by simpa using hn
  have hbm : (m != 0) = true := by simpa using hm
  have h1 : setEffectiveTtl (vnum n) (vobj (some m)) d = n := by
    simp [setEffectiveTtl, liftFirst, jsOr, truthy, objTtl, jsTypeof, List.find?, hbn]
  have h2 : setEffectiveTtl vundef (vobj (some m)) d = m := by
    simp [setEffectiveTtl, liftFirst, jsOr, truthy, objTtl, jsTypeof, List.find?, hbm]
  have h3 : setEffectiveTtl vundef vundef d = d := rfl
  refine ⟨?_, ?_, ?_⟩
  · have := fetchAll_upsert_self t ⟨k, bindVal (privSerialize c v), ts, ts + n⟩
    simpa [set, h1] using this
  · have := fetchAll_upsert_self t ⟨k, bindVal (privSerialize c v), ts, ts + m⟩
    simpa [set, h2] using this
  · have := fetchAll_upsert_self t ⟨k, bindVal (privSerialize c v), ts, ts + d⟩
    simpa [set, h3] using this

/-- Witness for the amended C5 theorem at `n = 7`, `m = 9`, `d = 3`. -/
theorem set_ttl_precedence_witness :
    fetchAll (set cborCodec 3 0 [] "k" (vnum 1) (vnum 7) (vobj (some 9))).table ["k"]
      = [⟨"k", bindVal (privSerialize cborCodec (vnum 1)), 0, 0 + 7⟩] :=
  (set_ttl_precedence cborCodec 3 0 [] "k" (vnum 1) 7 9 (by decide) (by decide)).1

/-- Claim C6: whenever the `mset` argument list — after the code pops a
trailing completion handler and, for odd counts, a trailing options
object — still has odd length, the dangling key yields a three-slot
placeholder group against the four insert columns, the batch statement
fails to prepare, the error is reported to the caller, and nothing is
written (no silent truncation to the complete pairs). -/
theorem mset_odd_args_error (c : Codec) (d ts : Int) (t : Table)
    (args : List JSVal) (h : (popOptions (popCallback args)).1.length % 2 = 1) :
    (mset c d ts t args).err = true ∧ (mset c d ts t args).table = t := by
  have hAny := tuplize2_odd_any (popOptions (popCallback args)).1 h
  simp [mset, hAny]

/-- Witness for the C6 theorem: `mset('k')` — a single dangling key — is
rejected with an error and leaves the table unchanged. -/
theorem mset_odd_args_error_witness :
    (mset cborCodec 1 0 [] [vstr "k"]).err = true ∧
      (mset cborCodec 1 0 [] [vstr "k"]).table = [] :=
  mset_odd_args_error cborCodec 1 0 [] [vstr "k"] (by decide)

/-- Claim C7: when the store's codec (always cbor, by construction) throws
on encoding `v`, `set(k, v)` still completes without error, the stored row
holds the `null` sentinel produced by the catch in `#serialize`, and a
subsequent `get(k)` — at any time, in particular before expiry — delivers
`null` rather than raising, because `#deserialize` catches the codec's
failure on the `null` payload. -/
theorem set_unencodable_degrades (d ts ts' : Int) (t : Table) (k : String)
    (v ttlArg o : JSVal) (h : cborCodec.serialize v = none) :
    (set cborCodec d ts t k v ttlArg o).err = false ∧
    fetchAll (set cborCodec d ts t k v ttlArg o).table [k]
      = [⟨k, vnull, ts, ts + setEffectiveTtl ttlArg o d⟩] ∧
    (get cborCodec ts' (set cborCodec d ts t k v ttlArg o).table k).value = vnull := by
  have hser : privSerialize cborCodec v = vnull := by
    simp [privSerialize, h]
  have htbl : (set cborCodec d ts t k v ttlArg o).table
      = upsert t ⟨k, vnull, ts, ts + setEffectiveTtl ttlArg o d⟩ := by
    simp [set, hser, bindVal]
  have hf := fetchAll_upsert_self t ⟨k, vnull, ts, ts + setEffectiveTtl ttlArg o d⟩
  refine ⟨rfl, ?_, ?_⟩
  · rw [htbl]
    exact hf
  · rw [htbl]
    by_cases hc : ts' < ts + setEffectiveTtl ttlArg o d
    · simp [get, mget, hf, hc, privDeserialize, cborCodec]
    · simp [get, mget, hf, hc]

/-- Witness for the C7 theorem: storing a function value (which the cbor
model cannot encode) succeeds and reads back as `null`. -/
theorem set_unencodable_degrades_witness :
    (get cborCodec 0 (set cborCodec 5 0 [] "k" vfun vundef vundef).table "k").value
      = vnull :=
  (set_unencodable_degrades 5 0 0 [] "k" vfun vundef vundef rfl).2.2

/-- Claim C8: `del(k)` runs a well-formed single-key delete, so it reports
no error whether or not a row for `k` exists, and afterwards no row for
`k` remains: a subsequent `get(k)` delivers `null`. -/
theorem del_missing_ok_and_removes (c : Codec) (ts : Int) (t : Table) (k : String) :
    (del t k).err = false ∧
    fetchAll (del t k).table [k] = [] ∧
    (get c ts (del t k).table k).value = vnull := by
  have hf := fetchAll_del_self t k
  refine ⟨rfl, hf, ?_⟩
  simp [get, mget, hf]

/-- Claim C9: `get(k)` is the batch path specialized to the one-element
key sequence `[k]` — it delivers the first element of `mget([k])` when
that result is non-empty and `null` otherwise, and inherits the batch
path's stale-row filtering and purge trigger unchanged. -/
theorem get_refines_batch_path (c : Codec) (ts : Int) (t : Table) (k : String) :
    get c ts t k = getViaBatch c ts t k := by
  have herr : (mget c ts t [k]).err = false := by
    simp [mget]
  unfold get getViaBatch
  simp [herr, match_first_headD]

/-- Claim C10: whenever no live entry backs `k` — every row for `k`, if
any, is expired — `get(k)` delivers exactly the value `null` with no
error; and a stored payload the codec cannot decode also decodes to
`null` through the catch in `#deserialize`. -/
theorem get_absent_is_null (c : Codec) (ts : Int) (t : Table) (k : String)
    (p : JSVal) (h1 : ∀ r ∈ t, r.key = k → r.expire_at ≤ ts)
    (h2 : c.deserialize p = none) :
    (get c ts t k).err = false ∧ (get c ts t k).value = vnull ∧
      privDeserialize c p = vnull := by
  have hrows : (fetchAll t [k]).filter (fun r => decide (ts < r.expire_at)) = [] := by
    rw [List.filter_eq_nil_iff]
    intro r hr
    rw [fetchAll_singleton] at hr
    have hm := List.mem_filter.mp hr
    have hk : r.key = k := by simpa using hm.2
    have hle := h1 r hm.1 hk
    simp
    omega
  refine ⟨?_, ?_, ?_⟩
  · simp [get, mget]
  · simp [get, mget, hrows]
  · simp [privDeserialize, h2]

/-- Witness for the C10 theorem: an empty table and the `null` payload
under the cbor codec. -/
theorem get_absent_is_null_witness :
    (get cborCodec 0 [] "x").value = vnull ∧ privDeserialize cborCodec vnull = vnull := by
  have h := get_absent_is_null cborCodec 0 [] "x" vnull (by simp) rfl
  exact ⟨h.2.1, h.2.2⟩

end SqliteCache
